import Mathlib

/-!
Verification development for the MeshExpert multi-agent expert-matching
pipeline. The TypeScript source is shallowly embedded: pure computations
become Lean functions over `ℚ` (JavaScript numbers are modelled as exact
rationals), MongoDB collections become lists carried through explicit
state passing, wall-clock time is an explicit `Nat` (milliseconds), and
every external effect (LLM completion, embedding provider, vector search,
random number generation, SHA-256) is an explicit oracle parameter, so
that each theorem quantifies over all possible behaviours of the effect.
-/

/- ===================== Data model (mongodb.ts) ===================== -/

/-- One entry of an `Expert`'s `skills` array. -/
structure Skill where
  name : String
  level : String
  yearsExp : Nat
deriving DecidableEq

/-- The `availability` sub-document of an `Expert`. -/
structure Availability where
  timezone : String
  hoursPerWeek : Nat
  status : String
deriving DecidableEq

/-- The `Expert` profile document (fields the pipeline reads; `_id` is
modelled as an already-stringified identifier, matching the
`String(m.expert._id)` conversion performed before any use). -/
structure Expert where
  _id : Option String
  name : String
  title : String
  bio : String
  skills : List Skill
  linkedIn : Option String
  github : Option String
  availability : Option Availability
  renownLevel : Option String
deriving DecidableEq

/-- One weighted skill of a parsed requirement set. -/
structure ReqSkill where
  name : String
  weight : ℚ
deriving DecidableEq

/-- One typed constraint of a parsed requirement set. -/
structure Constraint where
  type : String
  value : String
deriving DecidableEq

/-- `Query['parsedRequirements']` plus the `summary` field returned by
`parseQuery`. -/
structure Requirements where
  skills : List ReqSkill
  constraints : List Constraint
  intent : String
  summary : String
deriving DecidableEq

/-- A conversation entry (`AgentMessage`); the optional `data` payload is
not modelled, timestamps are `Nat` milliseconds. -/
structure AgentMessage where
  agent : String
  message : String
  timestamp : Nat
deriving DecidableEq

/-- A ranked result (`ExpertMatch`). -/
structure ExpertMatch where
  expert : Expert
  matchScore : ℚ
  reasoning : List String
  matchedBy : String
deriving DecidableEq


/- ============ JS string primitives (kernel-reducible models) ============ -/

/-- `String.prototype.toLowerCase` (ASCII-relevant model): lower-case each
character. -/
def lowerString (s : String) : String := String.mk (s.data.map Char.toLower)

/-- `String.prototype.trim`: drop leading and trailing whitespace. -/
def trimString (s : String) : String :=
  String.mk (((s.data.dropWhile Char.isWhitespace).reverse.dropWhile Char.isWhitespace).reverse)

/-- `split(/\s+/)` modulo empty fields: the maximal non-whitespace runs
of `s`, in order. JS `split(/\s+/)` differs only by a possible leading
empty-string field, which every consumer in the source discards via its
minimum-length filter. -/
def splitWsAux : List Char → List Char → List String
  | [], acc => if acc.isEmpty then [] else [String.mk acc.reverse]
  | c :: cs, acc =>
    if c.isWhitespace then
      if acc.isEmpty then splitWsAux cs [] else String.mk acc.reverse :: splitWsAux cs []
    else splitWsAux cs (c :: acc)

/-- The whitespace tokenization of a string. -/
def splitWs (s : String) : List String := splitWsAux s.data []

/- ===================== RecommenderAgent ===================== -/

/-- `RecommenderAgent.calculateSkillMatch`: ratio of matched requirement
weight to total requirement weight, with a neutral `0.5` default when the
requirement set is absent or empty (and when the total weight is not
positive). The JS `Set` membership test is list membership on lower-cased
names. -/
def calculateSkillMatch (expert : Expert) (requirements : Option Requirements) : ℚ :=
  match requirements with
  | none => 0.5
  | some reqs =>
    if reqs.skills.isEmpty then 0.5
    else
      let expertSkills := expert.skills.map (fun s => lowerString s.name)
      let totalWeight := (reqs.skills.map ReqSkill.weight).sum
      let matchedWeight :=
        ((reqs.skills.filter (fun r => expertSkills.contains (lowerString r.name))).map
          ReqSkill.weight).sum
      if 0 < totalWeight then matchedWeight / totalWeight else 0.5

/-- The effective renown classification: `expert.renownLevel || 'hidden'`
(an absent or empty-string level is falsy in JS and defaults to
`"hidden"`). -/
def effectiveRenown (expert : Expert) : String :=
  match expert.renownLevel with
  | some s => if s == "" then "hidden" else s
  | none => "hidden"

/-- `RecommenderAgent.calculateRenownMatch`: fixed lookup table comparing
the first `renown` constraint's (lower-cased) value against the
candidate's effective renown classification. -/
def calculateRenownMatch (expert : Expert) (requirements : Option Requirements) : ℚ :=
  match requirements with
  | none => 0.5
  | some reqs =>
    match reqs.constraints.find? (fun c => c.type == "renown") with
    | none => 0.5
    | some renownConstraint =>
      let requested := lowerString renownConstraint.value
      let actual := effectiveRenown expert
      if requested == "popular" then
        if actual == "famous" then 1
        else if actual == "established" then 0.8
        else if actual == "rising" then 0.4
        else 0.1
      else if requested == "hidden" then
        if actual == "hidden" then 1
        else if actual == "rising" then 0.7
        else 0.2
      else 0.5

/-- `expert.availability?.status === 'available' ? 0.1 : 0`. -/
def availabilityBonus (expert : Expert) : ℚ :=
  match expert.availability with
  | some a => if a.status == "available" then 0.1 else 0
  | none => 0

/-- The per-candidate score:
`Math.min(1, (skillMatch * 0.7) + (renownMatch * 0.3) + availabilityBonus)`. -/
def matchScoreOf (expert : Expert) (requirements : Option Requirements) : ℚ :=
  min 1 (calculateSkillMatch expert requirements * 0.7
    + calculateRenownMatch expert requirements * 0.3
    + availabilityBonus expert)

/-- The `ExpertMatch` record built for one candidate; `explain` is the
oracle for the `generateExplanation` LLM call. -/
def mkMatch (explain : String → Expert → ℚ → List String) (rawQuery : String)
    (requirements : Option Requirements) (expert : Expert) : ExpertMatch :=
  { expert := expert
    matchScore := matchScoreOf expert requirements
    reasoning := explain rawQuery expert (matchScoreOf expert requirements)
    matchedBy := "recommender" }

/-- The descending-score order used by `matches.sort((a, b) => b.matchScore - a.matchScore)`. -/
def scoreGe (a b : ExpertMatch) : Prop := b.matchScore ≤ a.matchScore

instance : DecidableRel scoreGe := fun a b =>
  inferInstanceAs (Decidable (b.matchScore ≤ a.matchScore))

instance : IsTotal ExpertMatch scoreGe := ⟨fun a b => le_total b.matchScore a.matchScore⟩

instance : IsTrans ExpertMatch scoreGe :=
  ⟨fun _ _ _ hab hbc => le_trans hbc hab⟩

/-- `RecommenderAgent.execute`: score the first five candidates, then sort
descending by score. JavaScript `Array.prototype.sort` is guaranteed
stable (ECMA-262), and with the consistent comparator
`b.matchScore - a.matchScore` its result is exactly a stable descending
sort, realized here by Mathlib's stable `List.insertionSort`. -/
def recommenderExecute (explain : String → Expert → ℚ → List String)
    (candidates : List Expert) (rawQuery : String)
    (requirements : Option Requirements) : List ExpertMatch :=
  List.insertionSort scoreGe
    ((candidates.take 5).map (mkMatch explain rawQuery requirements))

/- ===================== ProfileScoutAgent ===================== -/

/-- `leadChars p t`: `p` occurs at the start of `t` (character lists). -/
def leadChars : List Char → List Char → Bool
  | [], _ => true
  | _ :: _, [] => false
  | p :: ps, t :: ts => p == t && leadChars ps ts

/-- `occursIn p t`: `p` occurs contiguously somewhere inside `t`. -/
def occursIn (p : List Char) : List Char → Bool
  | [] => p.isEmpty
  | t :: ts => leadChars p (t :: ts) || occursIn p ts

/-- `new RegExp(pat, 'i').test(txt)` for the plain-text skill-name
patterns the scout builds: an unanchored, case-insensitive substring
test (regex metacharacters inside skill names are out of scope). -/
def ciMatches (pat txt : String) : Bool :=
  occursIn (lowerString pat).data (lowerString txt).data

/-- `input.requirements?.skills.map(s => s.name) || []`. -/
def reqSkillNames (requirements : Option Requirements) : List String :=
  (requirements.map (fun r => r.skills.map ReqSkill.name)).getD []

/-- The MongoDB fallback filter
`{ 'skills.name': { $in: skillNames.map(s => new RegExp(s, 'i')) } }`
(or the match-everything filter `{}` when there are no skill names): a
document matches when some element of its `skills` array has a name
matched by some skill-name regex. Only the `skills.name` field is
queried. -/
def fallbackSelects (skillNames : List String) (e : Expert) : Bool :=
  skillNames.isEmpty || e.skills.any (fun sk => skillNames.any (fun n => ciMatches n sk.name))

/-- The scout's keyword fallback: filter the expert store with
`fallbackSelects` and apply the `.limit(10)` result cap. The store list
stands for the collection in its natural scan order. -/
def scoutFallback (store : List Expert) (requirements : Option Requirements) : List Expert :=
  (store.filter (fallbackSelects (reqSkillNames requirements))).take 10

/-- `ProfileScoutAgent.execute` after the embedding step: `vectorResults`
is the oracle outcome of the `$vectorSearch` aggregation (already
renown-post-filtered and capped by the pipeline's `.limit(10)`);
`Except.error` is a thrown search error. A throw or an empty result list
falls through to the keyword fallback. -/
def scoutExecute (vectorResults : Except Unit (List Expert)) (store : List Expert)
    (requirements : Option Requirements) : List Expert :=
  match vectorResults with
  | .ok results => if results.length > 0 then results else scoutFallback store requirements
  | .error _ => scoutFallback store requirements

/-- Modelled from the spec: the §4.3 fallback as the specification words
it — the case-insensitive skill-name alternation run "against skill-name,
title, and bio fields". Kept solely for comparison against
`scoutFallback`, which is embedded from the source. -/
def scoutFallbackSpec (store : List Expert) (requirements : Option Requirements) : List Expert :=
  let skillNames := reqSkillNames requirements
  (store.filter (fun e =>
    skillNames.isEmpty
      || e.skills.any (fun sk => skillNames.any (fun n => ciMatches n sk.name))
      || skillNames.any (fun n => ciMatches n e.title)
      || skillNames.any (fun n => ciMatches n e.bio))).take 10

/- ===================== parseQuery (fireworks.ts) ===================== -/

/-- The stop-word list of `parseQuery`'s heuristic fallback. -/
def analystStopWords : List String :=
  ["find", "need", "want", "looking", "expert", "developer", "professional", "professionals"]

/-- `name.charAt(0).toUpperCase() + name.slice(1)`. -/
def capFirst (s : String) : String :=
  match s.toList with
  | [] => ""
  | c :: cs => String.mk (c.toUpper :: cs)

/-- The heuristic skill list: lower-case, split on whitespace runs (empty
tokens are removed by the length filter, so splitting at each whitespace
character is equivalent to JS `split(/\s+/)`), keep tokens longer than 3
characters, drop stop-words, take at most three, capitalize, fixed weight
`0.8`. -/
def heuristicSkills (rawQuery : String) : List ReqSkill :=
  ((((splitWs (lowerString rawQuery)).filter
        (fun w => w.length > 3)).filter
      (fun w => !(analystStopWords.contains w))).take 3).map
    (fun name => { name := capFirst name, weight := 0.8 })

/-- `parseQuery`'s `defaultResult`. -/
def defaultParseResult (rawQuery : String) : Requirements :=
  { skills := heuristicSkills rawQuery
    constraints := []
    intent := "technical_hire"
    summary := rawQuery }

/-- A JSON value, for modelling the completion provider's response. -/
inductive Json where
  | jnull
  | jbool (b : Bool)
  | jnum (v : ℚ)
  | jstr (s : String)
  | jarr (items : List Json)
  | jobj (fields : List (String × Json))

/-- Optional-chaining field access `parsed?.key`: a field of an object,
`undefined` otherwise. -/
def getField (j : Json) (key : String) : Option Json :=
  match j with
  | .jobj fields => (fields.find? (fun kv => kv.fst == key)).map Prod.snd
  | _ => none

/-- Whether `parsed?.skills` passes the `Array.isArray` validation. -/
def skillsFieldIsArray (j : Json) : Bool :=
  match getField j "skills" with
  | some (.jarr _) => true
  | _ => false

/-- A well-typed `{name, weight}` element read back from JSON. The
TypeScript code performs no element validation (a bare cast); elements of
the expected shape decode to themselves and ill-typed fields are given
neutral defaults. -/
def decodeSkill (j : Json) : ReqSkill :=
  { name := match getField j "name" with | some (.jstr s) => s | _ => ""
    weight := match getField j "weight" with | some (.jnum v) => v | _ => 0 }

/-- A well-typed `{type, value}` constraint element read back from JSON
(same casting convention as `decodeSkill`). -/
def decodeConstraint (j : Json) : Constraint :=
  { type := match getField j "type" with | some (.jstr s) => s | _ => ""
    value := match getField j "value" with | some (.jstr s) => s | _ => "" }

/-- Outcome of the `chat` completion call inside `parseQuery`: the call
threw (`fail`, e.g. `FIREWORKS_API_KEY not set`), returned text that
`JSON.parse` rejects (`unparsable`), or returned parsable JSON. -/
inductive ProviderOutcome where
  | fail (e : String)
  | unparsable
  | parsed (j : Json)

/-- `parseQuery`: on a thrown call or unparsable response the whole
`defaultResult` is returned; on parsed JSON each field is validated
independently (`skills` must be an array else the heuristic skills,
`constraints` must be an array else `[]`, `intent`/`summary` are
falsy-defaulted strings). -/
def parseQueryModel (outcome : ProviderOutcome) (rawQuery : String) : Requirements :=
  match outcome with
  | .fail _ => defaultParseResult rawQuery
  | .unparsable => defaultParseResult rawQuery
  | .parsed j =>
    { skills :=
        match getField j "skills" with
        | some (.jarr xs) => xs.map decodeSkill
        | _ => (defaultParseResult rawQuery).skills
      constraints :=
        match getField j "constraints" with
        | some (.jarr xs) => xs.map decodeConstraint
        | _ => []
      intent :=
        match getField j "intent" with
        | some (.jstr s) => if s == "" then "technical_hire" else s
        | _ => "technical_hire"
      summary :=
        match getField j "summary" with
        | some (.jstr s) => if s == "" then rawQuery else s
        | _ => rawQuery }

/- ===================== generateEmbedding (voyage.ts) ===================== -/

/-- An embedding-cache document (`cache_embeddings`). -/
structure EmbCacheEntry where
  textHash : String
  text : String
  embedding : List ℚ
  createdAt : Nat
deriving DecidableEq

/-- The degraded-mode fallback
`Array(1024).fill(0).map(() => Math.random() * 2 - 1)`; `rng` is the
`Math.random` oracle, indexed by position. -/
def voyageMockVector (rng : Nat → ℚ) : List ℚ :=
  (List.range 1024).map (fun i => rng i * 2 - 1)

/-- The environment of one `generateEmbedding` call: whether
`VOYAGE_API_KEY` is configured, the `Math.random` oracle, the SHA-256
oracle, and the outcomes of the three effectful steps (cache read,
provider call, cache write); `Except.error` means the step threw. -/
structure VoyageEnv where
  hasKey : Bool
  rng : Nat → ℚ
  sha : String → String
  dbRead : Except Unit Unit
  provider : Except Unit (List ℚ)
  dbWrite : Except Unit Unit

/-- The `findOne({ textHash })` cache probe. -/
def embCacheLookup (textHash : String) (cache : List EmbCacheEntry) : Option EmbCacheEntry :=
  cache.find? (fun c => c.textHash == textHash)

/-- The keyed upsert `updateOne({ textHash }, { $set: ... }, { upsert: true })`:
replace the first document with this hash, else append. -/
def upsertEmbCache (textHash preview : String) (embedding : List ℚ) (now : Nat) :
    List EmbCacheEntry → List EmbCacheEntry
  | [] => [{ textHash := textHash, text := preview, embedding := embedding, createdAt := now }]
  | e :: es =>
    if e.textHash == textHash then
      { textHash := textHash, text := preview, embedding := embedding, createdAt := now } :: es
    else e :: upsertEmbCache textHash preview embedding now es

/-- `generateEmbedding`: no credential short-circuits to a fresh mock
vector before any cache access; otherwise read the cache (a throw lands
in the catch-all and yields the mock vector), on a hit return the stored
vector, on a miss call the provider and store its vector (a provider or
write failure again lands in the catch-all with the cache unchanged,
since the failed write writes nothing). Returns the vector and the
updated cache collection. -/
def generateEmbedding (env : VoyageEnv) (cache : List EmbCacheEntry) (text : String)
    (now : Nat) : List ℚ × List EmbCacheEntry :=
  if !env.hasKey then (voyageMockVector env.rng, cache)
  else
    let textHash := env.sha text
    match env.dbRead with
    | .error _ => (voyageMockVector env.rng, cache)
    | .ok _ =>
      match embCacheLookup textHash cache with
      | some cached => (cached.embedding, cache)
      | none =>
        match env.provider with
        | .error _ => (voyageMockVector env.rng, cache)
        | .ok embedding =>
          match env.dbWrite with
          | .error _ => (voyageMockVector env.rng, cache)
          | .ok _ => (embedding, upsertEmbCache textHash (text.take 500) embedding now cache)

/- ===================== OrchestratorAgent ===================== -/

/-- A `queries` collection document. -/
structure QueryRecord where
  queryId : String
  rawQuery : String
  status : String
  agentConversation : List AgentMessage
  results : List String
  parsedRequirements : Option Requirements
  createdAt : Nat
  completedAt : Option Nat
deriving DecidableEq

/-- An `agent_tasks` collection document (the `steps` array is never
written by the pipeline and is not modelled). -/
structure TaskRecord where
  taskId : String
  queryId : String
  agents : List String
  status : String
  startedAt : Nat
  completedAt : Option Nat
deriving DecidableEq

/-- The payload returned by `processQuery` and stored in the result
cache. -/
structure PipelineOutput where
  queryId : String
  matches' : List ExpertMatch
  conversation : List AgentMessage
deriving DecidableEq

/-- A `cache_search_results` document. -/
structure CacheEntry where
  queryHash : String
  originalQuery : String
  result : PipelineOutput
  createdAt : Nat
  expiresAt : Nat
deriving DecidableEq

/-- The three collections the orchestrator touches. -/
structure DbState where
  queries : List QueryRecord
  tasks : List TaskRecord
  searchCache : List CacheEntry
deriving DecidableEq

/-- The four pipeline stages, abstracted as effect oracles: each returns
either a thrown error or the conversation entries it appends to the Query
Record together with its output. -/
structure Stages where
  analyst : String → Except String (List AgentMessage × Requirements)
  scout : Requirements → String → Except String (List AgentMessage × List Expert)
  verifier : List Expert → Except String (List AgentMessage × List Expert)
  recommender : List Expert → String → Requirements →
    Except String (List AgentMessage × List ExpertMatch)

/-- `rawQuery.trim().toLowerCase()`. -/
def normalizeQuery (rawQuery : String) : String := lowerString (trimString rawQuery)

/-- `crypto.createHash('sha256').update(normalized).digest('hex')`, with
the SHA-256 digest abstracted as the `sha` oracle. -/
def queryHashOf (sha : String → String) (rawQuery : String) : String :=
  sha (normalizeQuery rawQuery)

/-- `findOne({ queryHash, expiresAt: { $gt: new Date() } })`. -/
def cacheLookup (queryHash : String) (now : Nat) (db : DbState) : Option CacheEntry :=
  db.searchCache.find? (fun e => e.queryHash == queryHash && decide (now < e.expiresAt))

/-- The result-cache document written for a completed run (1 hour TTL). -/
def mkCacheEntry (queryHash rawQuery : String) (result : PipelineOutput) (now : Nat) :
    CacheEntry :=
  { queryHash := queryHash
    originalQuery := rawQuery
    result := result
    createdAt := now
    expiresAt := now + 3600000 }

/-- `updateOne({ queryHash }, { $set: ... }, { upsert: true })` on the
result cache: replace the first entry with this hash, else append. -/
def upsertSearchCache (queryHash rawQuery : String) (result : PipelineOutput) (now : Nat) :
    List CacheEntry → List CacheEntry
  | [] => [mkCacheEntry queryHash rawQuery result now]
  | e :: es =>
    if e.queryHash == queryHash then mkCacheEntry queryHash rawQuery result now :: es
    else e :: upsertSearchCache queryHash rawQuery result now es

/-- The synthetic conversation entry prepended on a cache hit. -/
def cacheHitEntry (now : Nat) : AgentMessage :=
  { agent := "orchestrator"
    message := "Retrieved optimized results from lightning cache."
    timestamp := now }

/-- The fresh Query Record inserted on a cache miss. -/
def newQueryRecord (queryId rawQuery : String) (now : Nat) : QueryRecord :=
  { queryId := queryId
    rawQuery := rawQuery
    status := "processing"
    agentConversation := []
    results := []
    parsedRequirements := none
    createdAt := now
    completedAt := none }

/-- The fresh Task Record inserted on a cache miss. -/
def newTaskRecord (taskId queryId : String) (now : Nat) : TaskRecord :=
  { taskId := taskId
    queryId := queryId
    agents := ["orchestrator", "analyst", "scout", "verifier", "recommender"]
    status := "in_progress"
    startedAt := now
    completedAt := none }

/-- `updateOne({ queryId }, ...)`: apply `f` to the documents matching the
invocation's (unique) query identifier. -/
def updateQueryRecords (queryId : String) (f : QueryRecord → QueryRecord)
    (l : List QueryRecord) : List QueryRecord :=
  l.map (fun r => if r.queryId == queryId then f r else r)

/-- A stage's `$push` of conversation entries onto the Query Record. -/
def pushConversation (queryId : String) (msgs : List AgentMessage)
    (l : List QueryRecord) : List QueryRecord :=
  updateQueryRecords queryId
    (fun r => { r with agentConversation := r.agentConversation ++ msgs }) l

/-- The catch-block `$set: { status: 'failed' }`. -/
def setQueryFailed (queryId : String) (l : List QueryRecord) : List QueryRecord :=
  updateQueryRecords queryId (fun r => { r with status := "failed" }) l

/-- The success-path `$set` on the Query Record. -/
def setQueryCompleted (queryId : String) (reqs : Requirements) (resultIds : List String)
    (now : Nat) (l : List QueryRecord) : List QueryRecord :=
  updateQueryRecords queryId
    (fun r => { r with
      status := "completed"
      parsedRequirements := some reqs
      results := resultIds
      completedAt := some now }) l

/-- The success-path `$set` on the Task Record. -/
def setTaskCompleted (taskId : String) (now : Nat) (l : List TaskRecord) : List TaskRecord :=
  l.map (fun t =>
    if t.taskId == taskId then { t with status := "completed", completedAt := some now } else t)

/-- `OrchestratorAgent.processQuery`. `sha` is the SHA-256 oracle, `st`
the stage oracles, `qid`/`tid` the invocation-fresh identifiers, `now`
the invocation's clock reading. Returns the call's outcome (`Except.error`
is a re-thrown stage exception) and the poststate of the three
collections. -/
def processQuery (sha : String → String) (st : Stages) (qid tid : String) (now : Nat)
    (db : DbState) (rawQuery : String) : Except String PipelineOutput × DbState :=
  let queryHash := queryHashOf sha rawQuery
  match cacheLookup queryHash now db with
  | some cached =>
    (Except.ok
      { queryId := cached.result.queryId
        matches' := cached.result.matches'
        conversation := cacheHitEntry now :: cached.result.conversation }, db)
  | none =>
    let db := { db with queries := db.queries ++ [newQueryRecord qid rawQuery now] }
    let db := { db with tasks := db.tasks ++ [newTaskRecord tid qid now] }
    match st.analyst rawQuery with
    | .error e => (.error e, { db with queries := setQueryFailed qid db.queries })
    | .ok (conv1, requirements) =>
      let db := { db with queries := pushConversation qid conv1 db.queries }
      match st.scout requirements rawQuery with
      | .error e => (.error e, { db with queries := setQueryFailed qid db.queries })
      | .ok (conv2, candidates) =>
        let db := { db with queries := pushConversation qid conv2 db.queries }
        match st.verifier candidates with
        | .error e => (.error e, { db with queries := setQueryFailed qid db.queries })
        | .ok (conv3, verified) =>
          let db := { db with queries := pushConversation qid conv3 db.queries }
          match st.recommender verified rawQuery requirements with
          | .error e => (.error e, { db with queries := setQueryFailed qid db.queries })
          | .ok (conv4, matchList) =>
            let db := { db with queries := pushConversation qid conv4 db.queries }
            let matchIds := matchList.map (fun m => (m.expert._id).getD "")
            let db := { db with
              queries := setQueryCompleted qid requirements matchIds now db.queries
              tasks := setTaskCompleted tid now db.tasks }
            let conversation :=
              ((db.queries.find? (fun r => r.queryId == qid)).map
                QueryRecord.agentConversation).getD []
            let finalResult : PipelineOutput :=
              { queryId := qid, matches' := matchList, conversation := conversation }
            let db := { db with
              searchCache := upsertSearchCache queryHash rawQuery finalResult now db.searchCache }
            (.ok finalResult, db)

/-- The first stage exception raised along the (cache-miss) pipeline, if
any: `none` means all four stages succeed. -/
def pipelineError (st : Stages) (rawQuery : String) : Option String :=
  match st.analyst rawQuery with
  | .error e => some e
  | .ok (_, requirements) =>
    match st.scout requirements rawQuery with
    | .error e => some e
    | .ok (_, candidates) =>
      match st.verifier candidates with
      | .error e => some e
      | .ok (_, verified) =>
        match st.recommender verified rawQuery requirements with
        | .error e => some e
        | .ok _ => none

/- ============ Concrete instances used by witnesses/counterexamples ============ -/

/-- An empty database state. -/
def emptyDb : DbState := { queries := [], tasks := [], searchCache := [] }

/-- A trivially succeeding bundle of stage oracles. -/
def stageStub : Stages :=
  { analyst := fun q => .ok ([], defaultParseResult q)
    scout := fun _ _ => .ok ([], [])
    verifier := fun cs => .ok ([], cs)
    recommender := fun _ _ _ => .ok ([], []) }

/-- A stage bundle whose analyst stage throws. -/
def stageStubFail : Stages :=
  { stageStub with analyst := fun _ => .error "stage failure" }

/-- A sample candidate profile. -/
def sampleExpert : Expert :=
  { _id := some "e1"
    name := "Ada"
    title := "Engineer"
    bio := "Systems"
    skills := [{ name := "Kubernetes", level := "senior", yearsExp := 6 }]
    linkedIn := none
    github := none
    availability := some { timezone := "UTC", hoursPerWeek := 40, status := "available" }
    renownLevel := some "famous" }

/-- A sample requirement set with a `popular` renown constraint. -/
def sampleReqs : Requirements :=
  { skills := [{ name := "Kubernetes", weight := 0.8 }]
    constraints := [{ type := "renown", value := "popular" }]
    intent := "technical_hire"
    summary := "k8s" }

/-- A store whose only candidate mentions the requirement skill in its
title and bio, but not among its skill names. -/
def scoutStoreC3 : List Expert :=
  [{ _id := none
     name := "Dev"
     title := "Kubernetes Lead"
     bio := "Kubernetes specialist"
     skills := [{ name := "Go", level := "senior", yearsExp := 5 }]
     linkedIn := none
     github := none
     availability := none
     renownLevel := none }]

/-- A requirement set asking for the `Kubernetes` skill. -/
def scoutReqsC3 : Requirements :=
  { skills := [{ name := "Kubernetes", weight := 0.8 }]
    constraints := []
    intent := "technical_hire"
    summary := "Kubernetes expert" }

/-- A parsable provider response whose `skills` field is not an array but
whose `constraints` and `summary` fields are present and well-formed. -/
def jsonC8 : Json :=
  .jobj [("skills", .jnum 0),
         ("constraints", .jarr [.jobj [("type", .jstr "renown"), ("value", .jstr "popular")]]),
         ("summary", .jstr "Parsed summary")]

/-- A cached pipeline payload. -/
def cachedOutputW : PipelineOutput :=
  { queryId := "q0"
    matches' := [mkMatch (fun _ _ _ => []) "react" none sampleExpert]
    conversation := [{ agent := "analyst", message := "done", timestamp := 1 }] }

/-- A database whose result cache holds one unexpired entry under hash
`"H"`. -/
def cacheDbW : DbState :=
  { queries := [], tasks := [], searchCache := [mkCacheEntry "H" "react" cachedOutputW 0] }

/-- A voyage environment with no provider credential configured. -/
def voyageEnvW : VoyageEnv :=
  { hasKey := false
    rng := fun _ => 0
    sha := id
    dbRead := .ok ()
    provider := .error ()
    dbWrite := .ok () }

/- ===================== Helper lemmas ===================== -/

lemma sum_map_filter_le (p : ReqSkill → Bool) (l : List ReqSkill)
    (h : ∀ s ∈ l, 0 ≤ s.weight) :
    ((l.filter p).map ReqSkill.weight).sum ≤ (l.map ReqSkill.weight).sum := by
  induction l with
  | nil => simp
  | cons a t ih =>
    have ha := h a (by simp)
    have ht : ∀ s ∈ t, 0 ≤ s.weight := fun s hs => h s (by simp [hs])
    by_cases hp : p a
    · simp only [List.filter_cons, hp, if_true, List.map_cons, List.sum_cons]
      exact add_le_add_left (ih ht) _
    · simp only [List.filter_cons, hp, if_false, List.map_cons, List.sum_cons, Bool.false_eq_true]
      calc ((t.filter p).map ReqSkill.weight).sum ≤ (t.map ReqSkill.weight).sum := ih ht
        _ ≤ a.weight + (t.map ReqSkill.weight).sum := le_add_of_nonneg_left ha

lemma calculateSkillMatch_bounds (e : Expert) (reqs : Requirements)
    (hw : ∀ s ∈ reqs.skills, 0 < s.weight ∧ s.weight ≤ 1) :
    0 ≤ calculateSkillMatch e (some reqs) ∧ calculateSkillMatch e (some reqs) ≤ 1 := by
  unfold calculateSkillMatch
  by_cases hemp : reqs.skills.isEmpty
  · simp [hemp]; norm_num
  · simp only [hemp, Bool.false_eq_true, if_false]
    have hne : reqs.skills ≠ [] := by
      intro h; rw [h] at hemp; simp at hemp
    have hT : 0 < (reqs.skills.map ReqSkill.weight).sum := by
      apply List.sum_pos
      · intro x hx
        obtain ⟨s, hs, rfl⟩ := List.mem_map.mp hx
        exact (hw s hs).1
      · simpa using hne
    have hM0 : 0 ≤ ((reqs.skills.filter
        (fun r => (e.skills.map (fun s => lowerString s.name)).contains
          (lowerString r.name))).map ReqSkill.weight).sum := by
      apply List.sum_nonneg
      intro x hx
      obtain ⟨s, hs, rfl⟩ := List.mem_map.mp hx
      exact (hw s (List.mem_of_mem_filter hs)).1.le
    have hMT := sum_map_filter_le
      (fun r => (e.skills.map (fun s => lowerString s.name)).contains (lowerString r.name))
      reqs.skills (fun s hs => (hw s hs).1.le)
    simp only [hT, if_true]
    exact ⟨div_nonneg hM0 hT.le, (div_le_one hT).mpr hMT⟩

lemma calculateRenownMatch_bounds (e : Expert) (r : Option Requirements) :
    0 ≤ calculateRenownMatch e r ∧ calculateRenownMatch e r ≤ 1 := by
  unfold calculateRenownMatch
  rcases r with _ | reqs
  · norm_num
  · cases hf : reqs.constraints.find? (fun c => c.type == "renown") with
    | none => simp only [hf]; norm_num
    | some rc =>
      simp only [hf]
      split_ifs <;> norm_num

lemma availabilityBonus_bounds (e : Expert) :
    0 ≤ availabilityBonus e ∧ availabilityBonus e ≤ 0.1 := by
  unfold availabilityBonus
  cases e.availability with
  | none => norm_num
  | some a => dsimp only; split_ifs <;> norm_num

lemma filter_orderedInsert (q : ℚ) (x : ExpertMatch) (l : List ExpertMatch) :
    (List.orderedInsert scoreGe x l).filter (fun m => m.matchScore == q)
      = if x.matchScore = q then x :: l.filter (fun m => m.matchScore == q)
        else l.filter (fun m => m.matchScore == q) := by
  induction l with
  | nil =>
    by_cases hx : x.matchScore = q <;>
      simp [List.orderedInsert, List.filter_cons, hx]
  | cons y t ih =>
    by_cases hxy : scoreGe x y
    · rw [List.orderedInsert, if_pos hxy]
      by_cases hx : x.matchScore = q <;>
        simp [List.filter_cons, hx]
    · have hlt : x.matchScore < y.matchScore := not_le.mp hxy
      rw [List.orderedInsert, if_neg hxy]
      by_cases hx : x.matchScore = q
      · have hy : y.matchScore ≠ q := hx ▸ hlt.ne'
        simp [List.filter_cons, hy, ih, hx]
      · simp [List.filter_cons, ih, hx]

lemma filter_insertionSort (q : ℚ) (l : List ExpertMatch) :
    (List.insertionSort scoreGe l).filter (fun m => m.matchScore == q)
      = l.filter (fun m => m.matchScore == q) := by
  induction l with
  | nil => rfl
  | cons x t ih =>
    rw [List.insertionSort, filter_orderedInsert, ih]
    by_cases hx : x.matchScore = q <;> simp [List.filter_cons, hx]

/- ===================== Claim theorems: Ranker ===================== -/

/-- C4: with a `popular` renown constraint the Ranker scores a present,
non-empty renown classification by the fixed table famous→1.0,
established→0.8, rising→0.4, otherwise→0.1; with a `hidden` constraint by
hidden→1.0, rising→0.7, otherwise→0.2; and with no renown constraint the
renown match defaults to 0.5. -/
theorem renown_lookup_table (e : Expert) (reqs : Requirements) :
    (reqs.constraints.find? (fun c => c.type == "renown") = none →
      calculateRenownMatch e (some reqs) = 0.5)
    ∧ (∀ rc v, reqs.constraints.find? (fun c => c.type == "renown") = some rc →
        e.renownLevel = some v → v ≠ "" →
        ((rc.value = "popular" →
            calculateRenownMatch e (some reqs) =
              (if v = "famous" then 1 else if v = "established" then 0.8
               else if v = "rising" then 0.4 else 0.1))
         ∧ (rc.value = "hidden" →
            calculateRenownMatch e (some reqs) =
              (if v = "hidden" then 1 else if v = "rising" then 0.7 else 0.2)))) := by
  have hpop : lowerString "popular" = "popular" := by decide
  have hhid : lowerString "hidden" = "hidden" := by decide
  constructor
  · intro h
    simp [calculateRenownMatch, h]
  · intro rc v hf hl hne
    have hact : effectiveRenown e = v := by
      simp [effectiveRenown, hl, hne]
    constructor
    · intro hv
      simp [calculateRenownMatch, hf, hv, hpop, hact]
    · intro hv
      have : ("hidden" == "popular") = false := by decide
      simp [calculateRenownMatch, hf, hv, hhid, hact, this]

/-- C4 witness: requesting `popular` against a `famous` candidate yields
renown match 1. -/
theorem renown_lookup_table_witness :
    calculateRenownMatch sampleExpert (some sampleReqs) = 1 := by
  have h := ((renown_lookup_table sampleExpert sampleReqs).2
    { type := "renown", value := "popular" } "famous" rfl rfl (by decide)).1 rfl
  exact h.trans (by norm_num)

/-- C5: for any candidate and any requirement set whose skill weights lie
in (0,1], the Ranker's score `min(1, 0.7*skillMatch + 0.3*renownMatch +
availabilityBonus)` lies in [0,1]. -/
theorem matchScore_in_unit_interval (e : Expert) (reqs : Requirements)
    (hw : ∀ s ∈ reqs.skills, 0 < s.weight ∧ s.weight ≤ 1) :
    0 ≤ matchScoreOf e (some reqs) ∧ matchScoreOf e (some reqs) ≤ 1 := by
  obtain ⟨s0, _⟩ := calculateSkillMatch_bounds e reqs hw
  obtain ⟨r0, _⟩ := calculateRenownMatch_bounds e (some reqs)
  obtain ⟨b0, _⟩ := availabilityBonus_bounds e
  unfold matchScoreOf
  refine ⟨le_min (by norm_num) ?_, min_le_left _ _⟩
  have h1 : 0 ≤ calculateSkillMatch e (some reqs) * 0.7 := by
    apply mul_nonneg s0; norm_num
  have h2 : 0 ≤ calculateRenownMatch e (some reqs) * 0.3 := by
    apply mul_nonneg r0; norm_num
  linarith

/-- C5 witness: the score of the sample candidate against the sample
requirement set (weight 0.8) is in [0,1]. -/
theorem matchScore_in_unit_interval_witness :
    0 ≤ matchScoreOf sampleExpert (some sampleReqs)
      ∧ matchScoreOf sampleExpert (some sampleReqs) ≤ 1 := by
  apply matchScore_in_unit_interval
  intro s hs
  have : s = { name := "Kubernetes", weight := 0.8 } := by
    simpa [sampleReqs] using hs
  rw [this]
  norm_num

/-- C9: a candidate with an absent renown classification is scored by the
Ranker exactly as if it were classified `hidden`; in particular a
`hidden` renown constraint scores it 1.0 and a `popular` constraint
scores it 0.1. -/
theorem renown_missing_level_defaults_hidden (e : Expert) (reqs : Requirements)
    (hnone : e.renownLevel = none) :
    calculateRenownMatch e (some reqs)
      = calculateRenownMatch { e with renownLevel := some "hidden" } (some reqs)
    ∧ (∀ rc, reqs.constraints.find? (fun c => c.type == "renown") = some rc →
        ((rc.value = "hidden" → calculateRenownMatch e (some reqs) = 1)
         ∧ (rc.value = "popular" → calculateRenownMatch e (some reqs) = 0.1))) := by
  have hhid : lowerString "hidden" = "hidden" := by decide
  have hpop : lowerString "popular" = "popular" := by decide
  have hact : effectiveRenown e = "hidden" := by simp [effectiveRenown, hnone]
  have hact' : effectiveRenown { e with renownLevel := some "hidden" } = "hidden" := by
    simp [effectiveRenown]
  constructor
  · unfold calculateRenownMatch
    rw [hact, hact']
  · intro rc hf
    constructor
    · intro hv
      simp [calculateRenownMatch, hf, hv, hhid, hact]
    · intro hv
      simp [calculateRenownMatch, hf, hv, hpop, hact]

/-- C9 witness: the sample candidate with its renown classification
removed scores 0.1 against the sample `popular` constraint. -/
theorem renown_missing_level_defaults_hidden_witness :
    calculateRenownMatch { sampleExpert with renownLevel := none } (some sampleReqs) = 0.1 :=
  ((renown_missing_level_defaults_hidden { sampleExpert with renownLevel := none }
      sampleReqs rfl).2 { type := "renown", value := "popular" } rfl).2 rfl

/-- C6: the Ranker returns at most five results, computed only from the
first five input candidates, sorted descending by match score, and the
sort is stable: for every score value, the results carrying that score
appear in the same relative order as the corresponding candidates in the
input. -/
theorem recommender_cap_sort_stable (explain : String → Expert → ℚ → List String)
    (candidates : List Expert) (rawQuery : String) (requirements : Option Requirements) :
    (recommenderExecute explain candidates rawQuery requirements).length ≤ 5
    ∧ recommenderExecute explain candidates rawQuery requirements
        = recommenderExecute explain (candidates.take 5) rawQuery requirements
    ∧ List.Sorted scoreGe (recommenderExecute explain candidates rawQuery requirements)
    ∧ ∀ q : ℚ,
        (recommenderExecute explain candidates rawQuery requirements).filter
            (fun m => m.matchScore == q)
          = ((candidates.take 5).map (mkMatch explain rawQuery requirements)).filter
            (fun m => m.matchScore == q) := by
  refine ⟨?_, ?_, ?_, ?_⟩
  · rw [recommenderExecute, (List.perm_insertionSort scoreGe _).length_eq,
      List.length_map]
    exact (List.length_take_le 5 candidates)
  · rw [recommenderExecute, recommenderExecute, List.take_take]
    norm_num
  · exact List.sorted_insertionSort scoreGe _
  · intro q
    exact filter_insertionSort q _

/- ============ Claim theorems: Scout fallback (C3) ============ -/

/-- C3 counterexample: with the vector search throwing, a candidate whose
title and bio both contain the requirement skill `Kubernetes` — but whose
skill names do not — is NOT returned by the source's fallback, although
the fallback described by the claim (matching skill-name, title, and bio
fields) would return it. -/
theorem scout_fallback_fields_counterexample :
    scoutExecute (.error ()) scoutStoreC3 (some scoutReqsC3) = []
    ∧ scoutFallbackSpec scoutStoreC3 (some scoutReqsC3) = scoutStoreC3 := by
  constructor <;> with_unfolding_all rfl

/-- C3 (amended): when the similarity search raises an error or returns
zero results, the scout falls back to keyword matching that runs the
case-insensitive requirement-skill patterns against the candidates'
skill-name field only (title and bio are not searched): every returned
candidate has some skill whose name contains some requirement skill name
case-insensitively; when the requirement set has no skills the fallback
matches every candidate; and the result is capped at 10. -/
theorem scout_fallback_amended (vres : Except Unit (List Expert)) (store : List Expert)
    (requirements : Option Requirements)
    (h : vres = .error () ∨ vres = .ok []) :
    scoutExecute vres store requirements
        = (store.filter (fallbackSelects (reqSkillNames requirements))).take 10
    ∧ (scoutExecute vres store requirements).length ≤ 10
    ∧ (∀ e ∈ scoutExecute vres store requirements,
        reqSkillNames requirements = []
          ∨ ∃ sk ∈ e.skills, ∃ n ∈ reqSkillNames requirements, ciMatches n sk.name = true)
    ∧ (reqSkillNames requirements = [] → scoutExecute vres store requirements = store.take 10) := by
  have heq : scoutExecute vres store requirements = scoutFallback store requirements := by
    rcases h with h | h <;> subst h <;> simp [scoutExecute]
  rw [heq]
  unfold scoutFallback
  refine ⟨rfl, List.length_take_le 10 _, ?_, ?_⟩
  · intro e he
    have hf := List.of_mem_filter (List.mem_of_mem_take he)
    unfold fallbackSelects at hf
    rcases Bool.or_eq_true_iff.mp hf with hemp | hany
    · exact Or.inl (List.isEmpty_iff.mp hemp)
    · right
      obtain ⟨sk, hsk, hn⟩ := List.any_eq_true.mp hany
      obtain ⟨n, hnmem, hci⟩ := List.any_eq_true.mp hn
      exact ⟨sk, hsk, n, hnmem, hci⟩
  · intro hempty
    have : ∀ e ∈ store, fallbackSelects (reqSkillNames requirements) e = true := by
      intro e _
      unfold fallbackSelects
      simp [hempty]
    rw [List.filter_eq_self.mpr this]

/-- C3 witness (amended theorem): with a throwing vector search and no
requirement set, the fallback returns the whole (capped) store. -/
theorem scout_fallback_amended_witness :
    scoutExecute (.error ()) scoutStoreC3 none = scoutStoreC3.take 10 :=
  (scout_fallback_amended (.error ()) scoutStoreC3 none (Or.inl rfl)).2.2.2 rfl

/- ============ Claim theorems: parseQuery fallback (C8) ============ -/

/-- C8 counterexample: a completion-provider response that parses as JSON
with a non-array `skills` field but well-formed `constraints` and
`summary` fields does NOT make `parseQuery` return the deterministic
heuristic result: the parsed constraints are kept (the heuristic's
constraint list is empty) and the parsed summary is kept (the heuristic's
summary is the raw query). -/
theorem parse_query_nonarray_counterexample :
    skillsFieldIsArray jsonC8 = false
    ∧ parseQueryModel (.parsed jsonC8) "Kubernetes expert"
        ≠ defaultParseResult "Kubernetes expert"
    ∧ (parseQueryModel (.parsed jsonC8) "Kubernetes expert").constraints
        = [{ type := "renown", value := "popular" }]
    ∧ (defaultParseResult "Kubernetes expert").constraints = []
    ∧ (parseQueryModel (.parsed jsonC8) "Kubernetes expert").summary = "Parsed summary"
    ∧ (defaultParseResult "Kubernetes expert").summary = "Kubernetes expert" := by
  refine ⟨rfl, of_decide_eq_true (by with_unfolding_all rfl), ?_, rfl, ?_, rfl⟩ <;>
    with_unfolding_all rfl

/-- C8 (amended): when the completion call throws or returns unparsable
JSON, `parseQuery` returns exactly the deterministic heuristic result
(lower-cased whitespace tokens with stop-words and tokens of length ≤ 3
removed, at most three, capitalized, weight 0.8, empty constraints, raw
query as summary); when the response parses but its `skills` field is not
an array, only the skills fall back to the heuristic while constraints,
intent and summary are taken from the parsed JSON with their own
defaults; for `"Kubernetes expert"` the heuristic yields exactly
`[{name := "Kubernetes", weight := 0.8}]`. -/
theorem parse_query_fallback (rawQuery errMsg : String) :
    parseQueryModel (.fail errMsg) rawQuery = defaultParseResult rawQuery
    ∧ parseQueryModel .unparsable rawQuery = defaultParseResult rawQuery
    ∧ (∀ j, skillsFieldIsArray j = false →
        (parseQueryModel (.parsed j) rawQuery).skills = (defaultParseResult rawQuery).skills)
    ∧ (defaultParseResult "Kubernetes expert").skills
        = [{ name := "Kubernetes", weight := 0.8 }] := by
  refine ⟨rfl, rfl, ?_, by with_unfolding_all rfl⟩
  intro j hj
  cases hg : getField j "skills" with
  | none => simp [parseQueryModel, hg]
  | some v => cases v <;> simp_all [parseQueryModel, skillsFieldIsArray, hg]

/-- C8 witness (amended theorem): a parsed non-object response falls back
to the heuristic skills. -/
theorem parse_query_fallback_witness :
    (parseQueryModel (.parsed (.jnum 3)) "find a Rust expert").skills
      = (defaultParseResult "find a Rust expert").skills :=
  (parse_query_fallback "find a Rust expert" "err").2.2.1 (.jnum 3) rfl

/- ============ Claim theorems: embedding cache (C10) ============ -/

/-- C10: the embedding cache is never poisoned by degraded-mode vectors:
with no credential the cache is neither read (the result is independent
of it) nor written and a fresh 1024-element mock vector is returned; a
cache-read, provider, or cache-write failure returns the mock vector with
the cache unchanged; and whenever the cache changes at all, the entry
written holds a vector returned by a successful provider call. -/
theorem embedding_cache_integrity (env : VoyageEnv) (cache : List EmbCacheEntry)
    (text : String) (now : Nat) :
    (env.hasKey = false →
      generateEmbedding env cache text now = (voyageMockVector env.rng, cache)
      ∧ (voyageMockVector env.rng).length = 1024
      ∧ ∀ cache2, (generateEmbedding env cache2 text now).1
          = (generateEmbedding env cache text now).1)
    ∧ (env.hasKey = true → env.dbRead = .error () →
        generateEmbedding env cache text now = (voyageMockVector env.rng, cache))
    ∧ (env.hasKey = true → env.dbRead = .ok () →
        embCacheLookup (env.sha text) cache = none → env.provider = .error () →
        generateEmbedding env cache text now = (voyageMockVector env.rng, cache))
    ∧ (env.hasKey = true → env.dbRead = .ok () →
        embCacheLookup (env.sha text) cache = none →
        ∀ emb, env.provider = .ok emb → env.dbWrite = .error () →
        generateEmbedding env cache text now = (voyageMockVector env.rng, cache))
    ∧ ((generateEmbedding env cache text now).2 ≠ cache →
        ∃ emb, env.provider = .ok emb
          ∧ (generateEmbedding env cache text now).1 = emb
          ∧ (generateEmbedding env cache text now).2
              = upsertEmbCache (env.sha text) (text.take 500) emb now cache) := by
  refine ⟨?_, ?_, ?_, ?_, ?_⟩
  · intro h
    refine ⟨by simp [generateEmbedding, h], by simp [voyageMockVector], ?_⟩
    intro cache2
    simp [generateEmbedding, h]
  · intro h1 h2
    simp [generateEmbedding, h1, h2]
  · intro h1 h2 h3 h4
    simp [generateEmbedding, h1, h2, h3, h4]
  · intro h1 h2 h3 emb h4 h5
    simp [generateEmbedding, h1, h2, h3, h4, h5]
  · intro hne
    by_cases hk : env.hasKey
    · cases hr : env.dbRead with
      | error u => exfalso; apply hne; simp [generateEmbedding, hk, hr]
      | ok u =>
        cases hl : embCacheLookup (env.sha text) cache with
        | some c => exfalso; apply hne; simp [generateEmbedding, hk, hr, hl]
        | none =>
          cases hp : env.provider with
          | error u2 => exfalso; apply hne; simp [generateEmbedding, hk, hr, hl, hp]
          | ok emb =>
            cases hw : env.dbWrite with
            | error u3 => exfalso; apply hne; simp [generateEmbedding, hk, hr, hl, hp, hw]
            | ok u3 =>
              exact ⟨emb, rfl, by simp [generateEmbedding, hk, hr, hl, hp, hw],
                by simp [generateEmbedding, hk, hr, hl, hp, hw]⟩
    · exfalso
      apply hne
      simp [generateEmbedding, hk]

/-- C10 witness: with no credential configured, the call returns the mock
vector, leaves the cache unchanged, and its result does not depend on the
cache contents. -/
theorem embedding_cache_integrity_witness :
    generateEmbedding voyageEnvW [] "query" 0 = (voyageMockVector voyageEnvW.rng, [])
    ∧ (voyageMockVector voyageEnvW.rng).length = 1024
    ∧ ∀ cache2, (generateEmbedding voyageEnvW cache2 "query" 0).1
        = (generateEmbedding voyageEnvW [] "query" 0).1 :=
  (embedding_cache_integrity voyageEnvW [] "query" 0).1 rfl

/- ============ Orchestrator helper lemmas ============ -/

lemma map_update_id (qid : String) (f : QueryRecord → QueryRecord) (l : List QueryRecord)
    (hl : ∀ x ∈ l, x.queryId ≠ qid) :
    l.map (fun r => if r.queryId == qid then f r else r) = l := by
  induction l with
  | nil => rfl
  | cons a t ih =>
    have ha : (a.queryId == qid) = false := beq_eq_false_iff_ne.mpr (hl a (by simp))
    simp only [List.map_cons, ha, Bool.false_eq_true, if_false]
    rw [ih (fun x hx => hl x (by simp [hx]))]

lemma updateQueryRecords_append (qid : String) (f : QueryRecord → QueryRecord)
    (l : List QueryRecord) (r : QueryRecord)
    (hl : ∀ x ∈ l, x.queryId ≠ qid) (hr : r.queryId = qid) :
    updateQueryRecords qid f (l ++ [r]) = l ++ [f r] := by
  unfold updateQueryRecords
  rw [List.map_append, map_update_id qid f l hl]
  simp [hr]

lemma find?_upsertSearchCache (h raw : String) (res : PipelineOutput) (tW tR : Nat)
    (l : List CacheEntry) (hT : tR < tW + 3600000) :
    (upsertSearchCache h raw res tW l).find?
        (fun e => e.queryHash == h && decide (tR < e.expiresAt))
      = some (mkCacheEntry h raw res tW) := by
  induction l with
  | nil => simp [upsertSearchCache, List.find?, mkCacheEntry, hT]
  | cons e es ih =>
    cases he : (e.queryHash == h) with
    | true =>
      simp only [upsertSearchCache, he, if_true]
      simp [List.find?, mkCacheEntry, hT]
    | false =>
      simp only [upsertSearchCache, he, Bool.false_eq_true, if_false]
      rw [List.find?]
      simp only [he, Bool.false_and]
      exact ih

/- ============ Claim theorems: Orchestrator (C1, C2, C7) ============ -/

/-- C7: on a result-cache hit (an entry under the query hash with its
expiry in the future), `processQuery` returns the cached payload with one
synthetic orchestrator entry prepended to its conversation, leaves the
entire database state unchanged, and its behaviour is independent of the
stage oracles and the fresh identifiers — the four stages are never
invoked and no Query/Task Record is created or modified. -/
theorem cache_hit_bypass (sha : String → String) (st st' : Stages)
    (qid tid qid' tid' : String) (t : Nat) (db : DbState) (q : String) (entry : CacheEntry)
    (hhit : cacheLookup (queryHashOf sha q) t db = some entry) :
    processQuery sha st qid tid t db q = processQuery sha st' qid' tid' t db q
    ∧ processQuery sha st qid tid t db q
        = (.ok { queryId := entry.result.queryId
                 matches' := entry.result.matches'
                 conversation := cacheHitEntry t :: entry.result.conversation }, db) := by
  constructor <;> simp only [processQuery, hhit]

/-- C7 witness: a concrete hit bypasses a failing stage bundle and
returns the cached payload unchanged, plus the synthetic entry. -/
theorem cache_hit_bypass_witness :
    processQuery (fun _ => "H") stageStub "q1" "t1" 5 cacheDbW "react"
        = processQuery (fun _ => "H") stageStubFail "q2" "t2" 5 cacheDbW "react"
    ∧ processQuery (fun _ => "H") stageStub "q1" "t1" 5 cacheDbW "react"
        = (.ok { queryId := cachedOutputW.queryId
                 matches' := cachedOutputW.matches'
                 conversation := cacheHitEntry 5 :: cachedOutputW.conversation }, cacheDbW) :=
  cache_hit_bypass (fun _ => "H") stageStub stageStubFail "q1" "t1" "q2" "t2" 5 cacheDbW
    "react" (mkCacheEntry "H" "react" cachedOutputW 0) rfl

/-- C1: queries that normalize identically (trim + lower-case) hash
identically; consequently, after a first cache-miss invocation whose
pipeline succeeds, a second invocation with an equal-normalizing query
running while the written entry is unexpired returns the first
invocation's matches unchanged, with exactly one cache-hit conversation
entry prepended to the first invocation's conversation. -/
theorem cache_normalized_determinism (sha : String → String) (st1 st2 : Stages)
    (qid1 tid1 qid2 tid2 : String) (db : DbState) (t1 t2 : Nat) (q1 q2 : String)
    (hnorm : normalizeQuery q1 = normalizeQuery q2)
    (hmiss : cacheLookup (queryHashOf sha q1) t1 db = none)
    (hok : pipelineError st1 q1 = none)
    (httl : t2 < t1 + 3600000) :
    queryHashOf sha q1 = queryHashOf sha q2
    ∧ ∃ out1 db1 out2 db2,
        processQuery sha st1 qid1 tid1 t1 db q1 = (.ok out1, db1)
        ∧ processQuery sha st2 qid2 tid2 t2 db1 q2 = (.ok out2, db2)
        ∧ out2.matches' = out1.matches'
        ∧ out2.conversation = cacheHitEntry t2 :: out1.conversation := by
  have hq : queryHashOf sha q1 = queryHashOf sha q2 := by
    unfold queryHashOf
    rw [hnorm]
  refine ⟨hq, ?_⟩
  unfold pipelineError at hok
  cases hA : st1.analyst q1 with
  | error eA => simp [hA] at hok
  | ok a =>
    obtain ⟨conv1, reqs⟩ := a
    simp only [hA] at hok
    cases hS : st1.scout reqs q1 with
    | error eS => simp [hS] at hok
    | ok b =>
      obtain ⟨conv2, cands⟩ := b
      simp only [hS] at hok
      cases hV : st1.verifier cands with
      | error eV => simp [hV] at hok
      | ok c =>
        obtain ⟨conv3, verified⟩ := c
        simp only [hV] at hok
        cases hR : st1.recommender verified q1 reqs with
        | error eR => simp [hR] at hok
        | ok d =>
          obtain ⟨conv4, matchList⟩ := d
          have hrun : ∃ p : PipelineOutput × DbState,
              processQuery sha st1 qid1 tid1 t1 db q1 = (.ok p.1, p.2)
              ∧ p.2.searchCache
                  = upsertSearchCache (queryHashOf sha q1) q1 p.1 t1 db.searchCache := by
            simp only [processQuery, hmiss, hA, hS, hV, hR]
            exact ⟨⟨_, _⟩, rfl, rfl⟩
          obtain ⟨p, hp1, hp2⟩ := hrun
          have hlook2 : cacheLookup (queryHashOf sha q2) t2 p.2
              = some (mkCacheEntry (queryHashOf sha q1) q1 p.1 t1) := by
            rw [← hq]
            unfold cacheLookup
            rw [hp2]
            exact find?_upsertSearchCache _ _ _ _ _ _ httl
          refine ⟨p.1, p.2,
            { queryId := p.1.queryId
              matches' := p.1.matches'
              conversation := cacheHitEntry t2 :: p.1.conversation }, p.2,
            hp1, ?_, rfl, rfl⟩
          simp only [processQuery, hlook2, mkCacheEntry]

/-- C2: if any of the four pipeline stages throws on the cache-miss path,
`processQuery` re-raises that error, the Query Record created for the
invocation ends with status `failed` (all other Query Records untouched),
the Task Record is exactly the freshly inserted one — still
`in_progress`, never updated — and the result cache is unchanged (nothing
is written for the query hash). -/
theorem pipeline_failure_contract (sha : String → String) (st : Stages)
    (qid tid : String) (t : Nat) (db : DbState) (q e : String)
    (hmiss : cacheLookup (queryHashOf sha q) t db = none)
    (hfail : pipelineError st q = some e)
    (hfresh : ∀ r ∈ db.queries, r.queryId ≠ qid) :
    (newTaskRecord tid qid t).status = "in_progress"
    ∧ ∃ conv, processQuery sha st qid tid t db q =
        (.error e,
         { queries := db.queries ++
             [{ queryId := qid, rawQuery := q, status := "failed",
                agentConversation := conv, results := [], parsedRequirements := none,
                createdAt := t, completedAt := none }],
           tasks := db.tasks ++ [newTaskRecord tid qid t],
           searchCache := db.searchCache }) := by
  have hpush : ∀ (g : QueryRecord → QueryRecord) (r : QueryRecord), r.queryId = qid →
      updateQueryRecords qid g (db.queries ++ [r]) = db.queries ++ [g r] :=
    fun g r hr => updateQueryRecords_append qid g db.queries r hfresh hr
  refine ⟨rfl, ?_⟩
  unfold pipelineError at hfail
  cases hA : st.analyst q with
  | error eA =>
    simp only [hA, Option.some.injEq] at hfail
    subst hfail
    refine ⟨[], ?_⟩
    simp only [processQuery, hmiss, hA]
    unfold setQueryFailed
    rw [hpush _ _ rfl]
    simp [newQueryRecord]
  | ok a =>
    obtain ⟨conv1, reqs⟩ := a
    simp only [hA] at hfail
    cases hS : st.scout reqs q with
    | error eS =>
      simp only [hS, Option.some.injEq] at hfail
      subst hfail
      refine ⟨conv1, ?_⟩
      simp only [processQuery, hmiss, hA, hS]
      unfold pushConversation setQueryFailed
      rw [hpush _ _ rfl, hpush _ _ rfl]
      simp [newQueryRecord]
    | ok b =>
      obtain ⟨conv2, cands⟩ := b
      simp only [hS] at hfail
      cases hV : st.verifier cands with
      | error eV =>
        simp only [hV, Option.some.injEq] at hfail
        subst hfail
        refine ⟨conv1 ++ conv2, ?_⟩
        simp only [processQuery, hmiss, hA, hS, hV]
        unfold pushConversation setQueryFailed
        rw [hpush _ _ rfl, hpush _ _ rfl, hpush _ _ rfl]
        simp [newQueryRecord]
      | ok c =>
        obtain ⟨conv3, verified⟩ := c
        simp only [hV] at hfail
        cases hR : st.recommender verified q reqs with
        | error eR =>
          simp only [hR, Option.some.injEq] at hfail
          subst hfail
          refine ⟨conv1 ++ conv2 ++ conv3, ?_⟩
          simp only [processQuery, hmiss, hA, hS, hV, hR]
          unfold pushConversation setQueryFailed
          rw [hpush _ _ rfl, hpush _ _ rfl, hpush _ _ rfl, hpush _ _ rfl]
          simp [newQueryRecord]
        | ok d =>
          simp only [hR] at hfail
          exact Option.noConfusion hfail

/-- C2 witness: a throwing analyst stage on an empty store re-raises,
marks the fresh Query Record failed, and leaves the fresh Task Record
`in_progress` and the cache empty. -/
theorem pipeline_failure_contract_witness :
    (newTaskRecord "t1" "q1" 0).status = "in_progress"
    ∧ ∃ conv, processQuery (fun _ => "H") stageStubFail "q1" "t1" 0 emptyDb "React " =
        (.error "stage failure",
         { queries := emptyDb.queries ++
             [{ queryId := "q1", rawQuery := "React ", status := "failed",
                agentConversation := conv, results := [], parsedRequirements := none,
                createdAt := 0, completedAt := none }],
           tasks := emptyDb.tasks ++ [newTaskRecord "t1" "q1" 0],
           searchCache := emptyDb.searchCache }) :=
  pipeline_failure_contract (fun _ => "H") stageStubFail "q1" "t1" 0 emptyDb "React "
    "stage failure" rfl rfl (by intro r hr; simp [emptyDb] at hr)

/-- C1 witness: `"React "` and `"react"` hash identically, and a second
invocation one millisecond after a successful first one returns the same
matches plus the cache-hit entry. -/
theorem cache_normalized_determinism_witness :
    queryHashOf (fun _ => "H") "React " = queryHashOf (fun _ => "H") "react"
    ∧ ∃ out1 db1 out2 db2,
        processQuery (fun _ => "H") stageStub "q1" "t1" 0 emptyDb "React " = (.ok out1, db1)
        ∧ processQuery (fun _ => "H") stageStub "q2" "t2" 1 db1 "react" = (.ok out2, db2)
        ∧ out2.matches' = out1.matches'
        ∧ out2.conversation = cacheHitEntry 1 :: out1.conversation :=
  cache_normalized_determinism (fun _ => "H") stageStub stageStub "q1" "t1" "q2" "t2"
    emptyDb 0 1 "React " "react" (by decide) rfl rfl (by decide)
